import Mathlib

/-!
A shallow embedding of the mailbot crawler (`src/mailbot.go`) and proofs
about its extraction pipeline, candidate filter, output sink behaviour and
source-scraper control flow.

Side effects are made explicit: the crawler state `St` carries the log-file
contents (`Option String`, `none` modelling a nil `*os.File` handle), the
list of lines printed to standard output, and the list of diagnostic lines
reported to standard error.  Network fetches are parameterised by an
oracle (`GetOutcome`) describing what the HTTP GET and the body read return.
-/

namespace Mailbot

/-- `\w` in Go's RE2: ASCII letters, digits and underscore. -/
def isWordChar (ch : Char) : Bool := ch.isAlphanum || ch == '_'

/-- `[\w.]` in Go's RE2: word characters or a dot. -/
def isWordDot (ch : Char) : Bool := isWordChar ch || ch == '.'

/-- Does `sub` occur at the head of `l`? (sequence-prefix test). -/
def startsWithSeq : List Char → List Char → Bool
  | [], _ => true
  | _ :: _, [] => false
  | a :: as, b :: bs => a == b && startsWithSeq as bs

/-- Substring containment on character lists, as `strings.Contains`. -/
def containsSeq (sub : List Char) : List Char → Bool
  | [] => sub.isEmpty
  | c :: t => startsWithSeq sub (c :: t) || containsSeq sub t

/-- `strings.Contains mail sub`. -/
def strContains (s sub : String) : Bool := containsSeq sub.data s.data

/-- `strings.Join` with separator `"\n"`. -/
def joinNL : List String → String
  | [] => ""
  | [s] => s
  | s :: rest => s ++ "\n" ++ joinNL rest

/--
FindAllString for the regex `[\w]+@[\w.]+` (mailbot.go line 119):
leftmost, non-overlapping, greedy matches of a non-empty word-character run,
an `@`, and a non-empty run of word-or-dot characters.  `fuel` bounds the
recursion; every recursive call is on a strictly shorter list, so fuel equal
to the list length plus one is always sufficient.
-/
def findAllAux : Nat → List Char → List String
  | 0, _ => []
  | _ + 1, [] => []
  | fuel + 1, c :: rest =>
    if isWordChar c then
      let w := c :: rest.takeWhile isWordChar
      let r1 := rest.dropWhile isWordChar
      match r1 with
      | '@' :: r2 =>
        let dom := r2.takeWhile isWordDot
        if dom.isEmpty then
          findAllAux fuel r1
        else
          String.mk (w ++ '@' :: dom) :: findAllAux fuel (r2.dropWhile isWordDot)
      | _ => findAllAux fuel r1
    else
      findAllAux fuel rest

/-- `r.FindAllString(page, -1)` for `r = regexp.MustCompile("[\\w]+@[\\w.]+")`.
The empty list models Go's `nil` result. -/
def findAllMails (page : String) : List String :=
  findAllAux (page.data.length + 1) page.data

/-- The fixed blacklist (mailbot.go lines 35-38). -/
def blacklist : List String := ["formorer@debian.org", "user@user"]

/--
One pass of the `FreshFilter` loop (mailbot.go lines 260-294), returning the
surviving (fresh) list together with the lines the loop prints to standard
output (`fmt.Println(mail, black)` fires on every blacklist hit).
-/
def FreshFilterRun : List String → List String × List String
  | [] => ([], [])
  | mail :: rest =>
    let t := FreshFilterRun rest
    if strContains mail ".png" then t
    else if strContains mail ".gif" then t
    else if strContains mail ".jpg" then t
    else if strContains mail "._" then t
    else if strContains mail "@." then t
    else if !strContains mail "." then t
    else
      let prints := blacklist.filterMap
        (fun black => if mail == black then some (mail ++ " " ++ black) else none)
      let blocked := blacklist.any (fun black => mail == black)
      if blocked then (t.1, prints ++ t.2)
      else (mail :: t.1, prints ++ t.2)

/-- `FreshFilter` — the returned fresh list. -/
def FreshFilter (mails : List String) : List String := (FreshFilterRun mails).1

/-- The per-candidate keep decision implemented by the `FreshFilter` loop body. -/
def freshKeep (mail : String) : Bool :=
  if strContains mail ".png" then false
  else if strContains mail ".gif" then false
  else if strContains mail ".jpg" then false
  else if strContains mail "._" then false
  else if strContains mail "@." then false
  else if !strContains mail "." then false
  else !(blacklist.any (fun black => mail == black))

/-- Command-line flags relevant to the modelled behaviour. -/
structure Flags where
  printToStdout : Bool
  verbose : Bool
deriving DecidableEq, Repr

/-- Observable crawler state: log-file contents (`none` = nil handle after a
failed open), stdout lines, stderr lines. -/
structure St where
  file : Option String
  stdout : List String
  stderr : List String
deriving DecidableEq, Repr

/-- `file.WriteString` on an `Option`al handle: a nil handle returns an error
(which every caller discards) and leaves nothing written. -/
def writeToFile : Option String → String → Option String
  | none, _ => none
  | some contents, s => some (contents ++ s)

/--
`GetMail` (mailbot.go lines 118-140).  Faithful to the source, including the
inverted emptiness test `if len(fresh) != 0 { return }` on line 130: the
function returns without writing when the filtered list is non-empty, and
writes (and optionally echoes) only when the filtered list is empty.
-/
def GetMail (fl : Flags) (st : St) (page : String) : St :=
  let mails := findAllMails page
  if mails.isEmpty then
    if fl.verbose then { st with stderr := st.stderr ++ ["no mail found"] } else st
  else
    let fr := FreshFilterRun mails
    let st1 : St := { st with stdout := st.stdout ++ fr.2 }
    if fr.1.length ≠ 0 then st1
    else
      let toWrite := joinNL fr.1
      let st2 : St := { st1 with file := writeToFile st1.file (toWrite ++ "\n") }
      if fl.printToStdout then { st2 with stdout := st2.stdout ++ [toWrite] } else st2

/-- `init` (mailbot.go lines 82-91): the result of `os.OpenFile` on the output
path.  On error the handle stays nil and the error is reported. -/
def initOpen : Except String String → Option String × List String
  | .error e => (none, [e])
  | .ok contents => (some contents, [])

/--
Oracle for one network retrieval: either `client.Get` itself fails with an
error, or it succeeds and `ioutil.ReadAll` returns the bytes it managed to
read together with an optional read error (partial bytes on failure).
-/
inductive GetOutcome where
  | getErr (e : String)
  | readRes (bytes : String) (err : Option String)
deriving DecidableEq

/-- The optional `Fetching: <url>` stdout line printed at the top of
`FetchPage` when verbose mode is on (mailbot.go lines 144-146). -/
def fetchEcho (fl : Flags) (st : St) (url : String) : St :=
  if fl.verbose then { st with stdout := st.stdout ++ ["Fetching: " ++ url] } else st

/--
`FetchPage` (mailbot.go lines 143-155): returns `(body, err)` and threads the
observable state.  A `client.Get` error is reported to stderr and yields an
empty body; a `ReadAll` error is not reported and yields the partial bytes.
-/
def FetchPage (fl : Flags) (st : St) (url : String) (oc : GetOutcome) :
    String × Option String × St :=
  let st0 := fetchEcho fl st url
  match oc with
  | .getErr e => ("", some e, { st0 with stderr := st0.stderr ++ [e] })
  | .readRes bytes err => (bytes, err, st0)

/-- `strings.Split` on character lists for a non-empty separator: cut at each
leftmost, non-overlapping occurrence.  `fuel` bounds the recursion and the
list length plus one is always enough fuel for a non-empty separator. -/
def splitSeq (sep : List Char) : Nat → List Char → List Char → List (List Char)
  | 0, acc, _ => [acc.reverse]
  | _ + 1, acc, [] => [acc.reverse]
  | fuel + 1, acc, c :: t =>
    if sep.isEmpty then [acc.reverse ++ c :: t]
    else if startsWithSeq sep (c :: t) then
      acc.reverse :: splitSeq sep fuel [] ((c :: t).drop sep.length)
    else
      splitSeq sep fuel (c :: acc) t

/-- `strings.Split s sep` for a non-empty `sep`. -/
def strSplit (s sep : String) : List String :=
  (splitSeq sep.data (s.data.length + 1) [] s.data).map String.mk

/-- `strings.Replace` with count `-1` on character lists: replace every
leftmost, non-overlapping occurrence of `old` (non-empty) by `new`. -/
def replaceSeq (old new : List Char) : Nat → List Char → List Char
  | 0, l => l
  | _ + 1, [] => []
  | fuel + 1, c :: t =>
    if old.isEmpty then c :: t
    else if startsWithSeq old (c :: t) then
      new ++ replaceSeq old new fuel ((c :: t).drop old.length)
    else
      c :: replaceSeq old new fuel t

/-- `strings.Replace s old new -1` for a non-empty `old`. -/
def strReplace (s old new : String) : String :=
  String.mk (replaceSeq old.data new.data (s.data.length + 1) s.data)

/-- The literal head of the pastebin listing regex
`class="i_p0" alt="" /><a href="(.*?)">`. -/
def pastebinLit : List Char := "class=\"i_p0\" alt=\"\" /><a href=\"".data

/-- The closing literal `">` of the pastebin listing regex. -/
def pastebinClose : List Char := "\">".data

/-- Lazy `(.*?)` followed by a closing literal: consume the minimal run of
non-newline characters until `close` matches, returning the consumed middle
together with the closing literal and the remainder; `none` when no close
occurs before a newline or the end of input. -/
def findClose (close : List Char) : List Char → Option (List Char × List Char)
  | [] => if startsWithSeq close [] then some ([], []) else none
  | c :: t =>
    if startsWithSeq close (c :: t) then some ([], (c :: t).drop close.length)
    else if c == '\n' then none
    else
      match findClose close t with
      | some (mid, rest) => some (c :: mid, rest)
      | none => none

/-- FindAllString for the pastebin listing regex (mailbot.go line 160):
leftmost, non-overlapping full matches `lit ++ middle ++ close`. -/
def pastebinLocAux : Nat → List Char → List String
  | 0, _ => []
  | _ + 1, [] => []
  | fuel + 1, c :: t =>
    if startsWithSeq pastebinLit (c :: t) then
      match findClose pastebinClose ((c :: t).drop pastebinLit.length) with
      | some (mid, rest) =>
        String.mk (pastebinLit ++ mid ++ pastebinClose) :: pastebinLocAux fuel rest
      | none => pastebinLocAux fuel t
    else
      pastebinLocAux fuel t

/-- `r.FindAllString(page, -1)` for the pastebin listing regex; the empty list
models Go's `nil`. -/
def pastebinLocate (page : String) : List String :=
  pastebinLocAux (page.data.length + 1) page.data

/-- Derivation of the raw-document URL from a discovered fragment
(mailbot.go line 179). -/
def pastebinRawlink (v : String) : String :=
  "https://pastebin.com/raw" ++ strReplace ((strSplit v "=\"").getD 3 "") "\">" ""

/--
The per-fragment loop of `Pastebin` (mailbot.go lines 173-187).  For each
fragment in order: if `strings.Split(v, "=\"")` has fewer than four parts,
report `can't parse` and stop; otherwise derive the raw link, fetch it (a
fetch error is reported and stops the loop), and hand the body to `GetMail`.
The second component accumulates the document bodies handed to `GetMail`.
-/
def pastebinLoop (fl : Flags) (doc : String → GetOutcome) :
    St → List String → List String → St × List String
  | st, processed, [] => (st, processed)
  | st, processed, v :: rest =>
    if (strSplit v "=\"").length < 4 then
      ({ st with stderr := st.stderr ++ ["can\x27t parse"] }, processed)
    else
      let rawlink := pastebinRawlink v
      let fr := FetchPage fl st rawlink (doc rawlink)
      match fr.2.1 with
      | some e => ({ fr.2.2 with stderr := fr.2.2.stderr ++ [e] }, processed)
      | none =>
        pastebinLoop fl doc (GetMail fl fr.2.2 fr.1) (processed ++ [fr.1]) rest

/--
`Pastebin` (mailbot.go lines 158-188).  Faithful to the source: a listing
fetch error is reported again by `Pastebin` (after `FetchPage` has already
reported it) and execution falls through — there is no early return — so the
fragment regex is still applied to the (empty or partial) listing body.
Returns the final state and the list of document bodies handed to `GetMail`.
-/
def Pastebin (fl : Flags) (st : St) (listing : GetOutcome)
    (doc : String → GetOutcome) : St × List String :=
  let fr := FetchPage fl st "https://pastebin.com/archive" listing
  let st2 := match fr.2.1 with
             | some e => { fr.2.2 with stderr := fr.2.2.stderr ++ [e] }
             | none => fr.2.2
  let raws := pastebinLocate fr.1
  if raws.isEmpty then
    if fl.verbose then ({ st2 with stderr := st2.stderr ++ ["no raw link"] }, [])
    else (st2, [])
  else
    pastebinLoop fl doc st2 [] raws

/-- The document body of testable property 7 / claim C4. -/
def c4body : String := "contact me at alice@example.com or see logo.png@site.x"

/-! ## Helper lemmas -/

/-- The fresh list produced by the `FreshFilter` loop is the per-element
filter by `freshKeep`. -/
theorem freshFilterRun_fst (mails : List String) :
    (FreshFilterRun mails).1 = mails.filter freshKeep := by
  induction mails with
  | nil => rfl
  | cons m rest ih =>
    simp only [FreshFilterRun, freshKeep, List.filter_cons]
    split_ifs <;> simp_all
    rename_i hmem hall
    exact hall m hmem rfl

/-! ## Claim theorems -/

/--
C1: the claim says that whenever the post-filter (fresh) list is non-empty,
`GetMail` writes exactly that list, newline-joined with a trailing newline,
to the log.  The code does the opposite: the emptiness test on line 130 is
inverted (`if len(fresh) != 0 { return }`), so on the input `a@b.c` — whose
filtered list is the non-empty `["a@b.c"]` — `GetMail` returns with the log
file, stdout and stderr all unchanged, writing nothing.
-/
theorem C1_nonempty_fresh_not_written :
    FreshFilter (findAllMails "a@b.c") = ["a@b.c"] ∧
    GetMail ⟨true, false⟩ ⟨some "", [], []⟩ "a@b.c" = ⟨some "", [], []⟩ := by
  decide

/--
C2: the claim says that when extraction finds candidates but the filter
rejects all of them, `GetMail` performs no write at all.  The code instead
takes the write path exactly in this case (inverted test on line 130): on
input `foo@bar` the fresh list is empty, yet `GetMail` appends a lone
newline to the log and echoes an empty line to stdout.
-/
theorem C2_empty_fresh_writes_newline :
    findAllMails "foo@bar" = ["foo@bar"] ∧
    FreshFilter ["foo@bar"] = [] ∧
    GetMail ⟨true, false⟩ ⟨some "", [], []⟩ "foo@bar" = ⟨some "\n", [""], []⟩ := by
  decide

/--
C3: the per-candidate keep decision of `FreshFilter` rejects a candidate
exactly when it contains one of `.png`, `.gif`, `.jpg`, `._`, `@.`, or
contains no dot, or equals a blacklist entry; and the fresh list returned by
`FreshFilter` is precisely the per-element filter by that decision.
-/
theorem C3_filter_reject_iff (mails : List String) (mail : String) :
    FreshFilter mails = mails.filter freshKeep ∧
    (freshKeep mail = false ↔
      (strContains mail ".png" = true ∨ strContains mail ".gif" = true ∨
       strContains mail ".jpg" = true ∨ strContains mail "._" = true ∨
       strContains mail "@." = true ∨ strContains mail "." = false ∨
       mail ∈ blacklist)) := by
  refine ⟨freshFilterRun_fst mails, ?_⟩
  unfold freshKeep
  split_ifs <;> simp_all [List.any_eq_true, blacklist]
  tauto

/--
C4: the claim says the body
`contact me at alice@example.com or see logo.png@site.x` yields exactly one
Fresh Address.  In the code, the second lexical match of `[\w]+@[\w.]+` is
`png@site.x` (the regex cannot include the `.` of `logo.png` before the
`@`), which does not contain the substring `.png` and therefore survives the
filter, so the pipeline yields two Fresh Addresses, not one.
-/
theorem C4_two_fresh_addresses :
    FreshFilter (findAllMails c4body) = ["alice@example.com", "png@site.x"] ∧
    (FreshFilter (findAllMails c4body)).length ≠ 1 := by
  decide

/--
C4 (amended): on that body, extraction finds `alice@example.com` and
`png@site.x`, both survive the filter, and — the fresh list being non-empty —
`GetMail` returns without writing anything: the state is unchanged.
-/
theorem C4_amended_pipeline (fl : Flags) (st : St) :
    FreshFilter (findAllMails c4body) = ["alice@example.com", "png@site.x"] ∧
    GetMail fl st c4body = st := by
  refine ⟨by decide, ?_⟩
  unfold GetMail
  have h1 : (findAllMails c4body).isEmpty = false := by decide
  have h2 : (FreshFilterRun (findAllMails c4body)).1.length ≠ 0 := by decide
  have h3 : (FreshFilterRun (findAllMails c4body)).2 = [] := by decide
  simp [h1, h2, h3]

/--
C5: the claim says a failed listing fetch is reported once and the scraper
returns immediately.  In the code, `FetchPage` reports the GET error and
`Pastebin` reports it a second time, and — lacking a `return` after that
report — falls through to fragment extraction on the empty body: the
resulting state carries two identical failure diagnostics instead of one.
-/
theorem C5_listing_failure_double_report :
    (Pastebin ⟨true, false⟩ ⟨some "", [], []⟩ (.getErr "connection refused")
        (fun _ => .getErr "x")).1 =
      ⟨some "", [], ["connection refused", "connection refused"]⟩ ∧
    (Pastebin ⟨true, false⟩ ⟨some "", [], []⟩ (.getErr "connection refused")
        (fun _ => .getErr "x")).2 = [] := by
  decide

/--
C6: when the second of three discovered fragments is malformed (its
`strings.Split` on `="` has fewer than four parts), the pastebin round
processes exactly the first document, emits exactly one `can't parse`
diagnostic, and never reaches the third fragment.
-/
theorem C6_malformed_fragment_aborts (fl : Flags) (doc : String → GetOutcome)
    (st : St) (f1 f2 f3 body : String)
    (h1 : ¬ (strSplit f1 "=\"").length < 4)
    (h2 : (strSplit f2 "=\"").length < 4)
    (hf : doc (pastebinRawlink f1) = .readRes body none) :
    (pastebinLoop fl doc st [] [f1, f2, f3]).2 = [body] ∧
    (pastebinLoop fl doc st [] [f1, f2, f3]).1.stderr =
      (GetMail fl (FetchPage fl st (pastebinRawlink f1)
          (doc (pastebinRawlink f1))).2.2 body).stderr ++ ["can\x27t parse"] := by
  simp only [pastebinLoop, hf, FetchPage]
  simp [h1, h2, pastebinLoop, FetchPage, hf]

/-- C6 witness: a concrete three-fragment round with a well-formed first
fragment, a malformed second one, and a trivially succeeding document fetch. -/
theorem C6_malformed_fragment_aborts_witness :
    (pastebinLoop ⟨true, false⟩ (fun _ => .readRes "" none) ⟨some "", [], []⟩ []
        ["a=\"b=\"c=\"d", "bad", "z"]).2 = [""] ∧
    (pastebinLoop ⟨true, false⟩ (fun _ => .readRes "" none) ⟨some "", [], []⟩ []
        ["a=\"b=\"c=\"d", "bad", "z"]).1.stderr =
      (GetMail ⟨true, false⟩ (FetchPage ⟨true, false⟩ ⟨some "", [], []⟩
          (pastebinRawlink "a=\"b=\"c=\"d")
          ((fun _ => GetOutcome.readRes "" none) (pastebinRawlink "a=\"b=\"c=\"d"))).2.2
        "").stderr ++ ["can\x27t parse"] :=
  C6_malformed_fragment_aborts ⟨true, false⟩ (fun _ => .readRes "" none)
    ⟨some "", [], []⟩ "a=\"b=\"c=\"d" "bad" "z" "" (by decide) (by decide) rfl

/--
C7: the claim says filter exhaustion is entirely silent on every channel.
On input `formorer@debian.org` (a blacklist entry) the code instead prints a
debug line `formorer@debian.org formorer@debian.org` to stdout from inside
`FreshFilter` (line 285), and — via the inverted emptiness test — appends a
lone newline to the log and echoes an empty line.
-/
theorem C7_exhaustion_not_silent :
    FreshFilter (findAllMails "formorer@debian.org") = [] ∧
    GetMail ⟨true, false⟩ ⟨some "", [], []⟩ "formorer@debian.org" =
      ⟨some "\n", ["formorer@debian.org formorer@debian.org", ""], []⟩ := by
  decide

/--
C8 (counterexample): the claim says every transport-level failure is
reported and comes with an empty body.  When the GET succeeds but the body
read fails, `FetchPage` returns the partial bytes (non-empty) with the error
and reports nothing.
-/
theorem C8_read_failure_counterexample :
    (FetchPage ⟨true, false⟩ ⟨some "", [], []⟩ "http://example.com"
        (.readRes "partial" (some "unexpected EOF"))).2.1 = some "unexpected EOF" ∧
    (FetchPage ⟨true, false⟩ ⟨some "", [], []⟩ "http://example.com"
        (.readRes "partial" (some "unexpected EOF"))).1 ≠ "" ∧
    (FetchPage ⟨true, false⟩ ⟨some "", [], []⟩ "http://example.com"
        (.readRes "partial" (some "unexpected EOF"))).2.2.stderr = [] := by
  decide

/--
C8 (amended): when the HTTP GET itself fails, `FetchPage` reports the error
to stderr and returns an empty body with the error; when the GET succeeds
but reading the body fails, it returns the partially read bytes with the
error and emits no report.
-/
theorem C8_amended_fetchpage (fl : Flags) (st : St) (url e bytes : String)
    (re : Option String) :
    FetchPage fl st url (.getErr e) =
      ("", some e,
        { fetchEcho fl st url with stderr := (fetchEcho fl st url).stderr ++ [e] }) ∧
    FetchPage fl st url (.readRes bytes re) = (bytes, re, fetchEcho fl st url) :=
  ⟨rfl, rfl⟩

/--
C10: when opening the log file fails at startup, the error is reported and
the handle stays nil; every later `GetMail` write against the nil handle
fails silently (the log stays absent), while the stdout echo and the stderr
diagnostics are exactly those of a run with a healthy handle.
-/
theorem C10_nil_handle_runs_on (fl : Flags) (o er : List String)
    (page e contents : String) :
    initOpen (.error e) = (none, [e]) ∧
    (GetMail fl ⟨none, o, er⟩ page).file = none ∧
    (GetMail fl ⟨none, o, er⟩ page).stdout =
      (GetMail fl ⟨some contents, o, er⟩ page).stdout ∧
    (GetMail fl ⟨none, o, er⟩ page).stderr =
      (GetMail fl ⟨some contents, o, er⟩ page).stderr := by
  refine ⟨rfl, ?_, ?_, ?_⟩ <;>
    · unfold GetMail
      dsimp only
      split <;> (try split) <;> (try split) <;> simp [writeToFile]

end Mailbot
